import Mathlib

/-!
Verification of the killfeed detection-and-grouping pipeline
(battlefield killfeed repository).

Shallow embedding of the pure computational core of the four modules:

* detector.py  : shape filtering with confidence scoring and stack-slot
  assignment (`shape_check`, `filter_by_shape`, `assign_stack_slot`);
* processor.py : frame-stride computation and frame sampling
  (`frame_skip`, `sample_frames`);
* indexer.py   : chain grouping of detections into events, classification
  and export (`group_detections`, `classify_event`, `create_event`,
  `export_to_csv`, `export_to_json`);
* clipper.py   : event filtering, event clustering, codec selection and
  clip planning (`filter_events`, `cluster_events`, `codecs_to_try`,
  `extract_clips`).

Python floats are embedded as `ℚ` (all the constants involved are exact
decimals), machine ints as `ℤ`/`ℕ`, `None`-returning functions as
`Option`-valued ones, and file writes as the data that would be written
(`none` = no file written).  Python's `sorted` is a stable sort and is
embedded as `List.insertionSort` (also stable, hence extensionally the
same function for a fixed key order).
-/

namespace BKF

/-- Embeds the `Detection` dataclass of detector.py: one candidate UI box
in one sampled frame. -/
structure Detection where
  frame : Nat
  time_sec : ℚ
  x : ℤ
  y : ℤ
  width : ℤ
  height : ℤ
  stack_slot : Nat
  confidence : ℚ
deriving DecidableEq

/-- Embeds the `Event` dataclass of indexer.py.  The Python field
`stack_slot_range : tuple` is split into its two components
`stack_slot_min` / `stack_slot_max` (exactly as the CSV export writes it). -/
structure Event where
  video_id : String
  start_frame : Nat
  end_frame : Nat
  start_time : ℚ
  end_time : ℚ
  box_count : Nat
  stack_slot_min : Nat
  stack_slot_max : Nat
  tag_guess : String
  confidence : ℚ
  detections : List Detection
deriving DecidableEq

/-- A surviving box of detector.py `_filter_by_shape`: the Python tuple
`(x, y, w, h, confidence)`. -/
structure Box where
  x : ℤ
  y : ℤ
  w : ℤ
  h : ℤ
  confidence : ℚ
deriving DecidableEq

/-- The data of one OpenCV contour that `_filter_by_shape` consumes: its
enclosed area (`cv2.contourArea`, a float) and its bounding rectangle
(`cv2.boundingRect`, integers). -/
structure Contour where
  area : ℚ
  x : ℤ
  y : ℤ
  w : ℤ
  h : ℤ
deriving DecidableEq

/-- Python `int()` on a rational: truncation toward zero (the numerator
is divided by the positive denominator with truncating division). -/
def ratTrunc (q : ℚ) : ℤ :=
  q.num.tdiv q.den

/-- Floor of a rational, computably (`fdiv` is floor division and
`q.den > 0`). -/
def ratFloor (q : ℚ) : ℤ :=
  q.num.fdiv q.den

/-- Python 3 `round()` on a rational: round half to even. -/
def pyRound (q : ℚ) : ℤ :=
  let f : ℤ := ratFloor q
  let r : ℚ := q - (f : ℚ)
  if r < 1 / 2 then f
  else if 1 / 2 < r then f + 1
  else if f % 2 = 0 then f else f + 1

/-- Embeds `frame_skip = max(1, int(video_info.fps / sample_fps))` of
processor.py `process_video` (line 67). -/
def frame_skip (fps sample_fps : ℚ) : Nat :=
  max 1 (ratTrunc (fps / sample_fps)).toNat

/-- Modelled from the spec: the stride the spec claims, word for word:
`stride = max(1, round(fps / sample_fps))` with Python's `round`.
Stated only to be compared against `frame_skip`, which embeds the code. -/
def claimedStride (fps sample_fps : ℚ) : Nat :=
  max 1 (pyRound (fps / sample_fps)).toNat

/-- Embeds the sampling loop of processor.py `_sample_frames`: frames are
read sequentially from index `0` while decoding succeeds (`frame_count`
successful reads in the error-free run embedded here) and a frame is
yielded exactly when `frame_num % frame_skip == 0`, paired with
`time_sec = frame_num / fps`. -/
def sample_frames (fps : ℚ) (frame_skip : Nat) (frame_count : Nat) : List (Nat × ℚ) :=
  (List.range frame_count).filterMap
    (fun n => if n % frame_skip = 0 then some (n, (n : ℚ) / fps) else none)

/-- The key order `lambda d: d.time_sec` used by indexer.py
`group_detections` when it sorts the detections. -/
def detLE (a b : Detection) : Prop :=
  a.time_sec ≤ b.time_sec

instance : DecidableRel detLE :=
  fun a b => inferInstanceAs (Decidable (a.time_sec ≤ b.time_sec))

instance : IsTotal Detection detLE :=
  ⟨fun a b => le_total a.time_sec b.time_sec⟩

instance : IsTrans Detection detLE :=
  ⟨fun _ _ _ h h2 => le_trans h h2⟩

/-- The accumulation test of indexer.py `group_detections`:
`detection.time_sec - last_time <= delta_t`, where `last` is the last
detection already accumulated in the current group. -/
def detGapOK (delta : ℚ) (last cur : Detection) : Bool :=
  decide (cur.time_sec - last.time_sec ≤ delta)

/-- One iteration of the chain-grouping loop shared by indexer.py
`group_detections` (over detections) and clipper.py `_cluster_events`
(over events): if the current group is empty the element starts it;
otherwise the element joins the group when `gapOK last element` holds for
the group's last element, and else the group is closed and a new group is
started with the element. -/
def chainStep (gapOK : α → α → Bool) (st : List (List α) × List α) (d : α) :
    List (List α) × List α :=
  match st with
  | (evs, []) => (evs, [d])
  | (evs, g :: gs) =>
    if gapOK ((g :: gs).getLast (List.cons_ne_nil g gs)) d then (evs, g :: (gs ++ [d]))
    else (evs ++ [g :: gs], [d])

/-- The epilogue of both chain-grouping loops: the still-open group, when
nonempty, is appended as a final group. -/
def closeGroups (st : List (List α) × List α) : List (List α) :=
  match st.2 with
  | [] => st.1
  | _ => st.1 ++ [st.2]

/-- The full chain-grouping loop of indexer.py `group_detections`,
starting from no closed group and an empty current group. -/
def chainGroups (gapOK : α → α → Bool) (l : List α) : List (List α) :=
  closeGroups (l.foldl (chainStep gapOK) ([], []))

/-- Embeds indexer.py `_classify_event`: threshold classification on the
number of member detections. -/
def classify_event (min_boxes_for_multikill : Nat) (detections : List Detection) : String :=
  if min_boxes_for_multikill ≤ detections.length then "MULTI_KILL"
  else if detections.length = 1 then "KILL"
  else "UNKNOWN"

/-- Embeds indexer.py `_create_event`: `None` on an empty group, and
otherwise the aggregate event (min/max of frames, times and stack slots,
mean confidence, classification, member detections). -/
def create_event (min_boxes : Nat) (video_id : String) (detections : List Detection) :
    Option Event :=
  match detections with
  | [] => none
  | d :: ds =>
    some
      { video_id := video_id
        start_frame := (ds.map Detection.frame).foldl min d.frame
        end_frame := (ds.map Detection.frame).foldl max d.frame
        start_time := (ds.map Detection.time_sec).foldl min d.time_sec
        end_time := (ds.map Detection.time_sec).foldl max d.time_sec
        box_count := (d :: ds).length
        stack_slot_min := (ds.map Detection.stack_slot).foldl min d.stack_slot
        stack_slot_max := (ds.map Detection.stack_slot).foldl max d.stack_slot
        tag_guess := classify_event min_boxes (d :: ds)
        confidence := ((d :: ds).map Detection.confidence).sum / (d :: ds).length
        detections := d :: ds }

/-- Embeds indexer.py `group_detections`: empty input is returned as-is;
otherwise the detections are sorted by `time_sec` (Python `sorted`,
stable) and chain-grouped with gap threshold `delta`, and each group is
turned into an event by `create_event` (`filterMap` embeds the loop's
`if event: events.append(event)`). -/
def group_detections (delta : ℚ) (min_boxes : Nat) (video_id : String)
    (detections : List Detection) : List Event :=
  match detections with
  | [] => []
  | _ :: _ =>
    (chainGroups (detGapOK delta) (detections.insertionSort detLE)).filterMap
      (create_event min_boxes video_id)

/-- Concatenation of the member detections of a list of events, in event
order (the re-flattening used to state grouping idempotence). -/
def flatten_events (events : List Event) : List Detection :=
  (events.map Event.detections).flatten

/-- One aggregate row of the CSV export of indexer.py `export_to_csv`
(its `fieldnames`, in order). -/
structure CsvRow where
  video_id : String
  start_frame : Nat
  end_frame : Nat
  start_time : ℚ
  end_time : ℚ
  box_count : Nat
  stack_slot_min : Nat
  stack_slot_max : Nat
  tag_guess : String
  confidence : ℚ
deriving DecidableEq

/-- The row `export_to_csv` writes for one event. -/
def csv_row (e : Event) : CsvRow :=
  { video_id := e.video_id
    start_frame := e.start_frame
    end_frame := e.end_frame
    start_time := e.start_time
    end_time := e.end_time
    box_count := e.box_count
    stack_slot_min := e.stack_slot_min
    stack_slot_max := e.stack_slot_max
    tag_guess := e.tag_guess
    confidence := e.confidence }

/-- Embeds indexer.py `export_to_csv` as the file content it writes:
`none` when the event list is empty (the function logs a warning and
returns without writing a file), otherwise the rows written. -/
def export_to_csv (events : List Event) : Option (List CsvRow) :=
  match events with
  | [] => none
  | _ :: _ => some (events.map csv_row)

/-- Embeds indexer.py `export_to_json` as the file content it writes:
`none` when the event list is empty (warning, no file), otherwise the
top-level object `(video_id of the first event, total_events, events)`. -/
def export_to_json (events : List Event) : Option (String × Nat × List Event) :=
  match events with
  | [] => none
  | e :: _ => some (e.video_id, events.length, events)

/-- Python `str.isalnum()` restricted to the ASCII alphanumerics that a
four-character-code codec tag is made of: true when every character is
alphanumeric and the string is nonempty. -/
def str_isalnum (s : String) : Bool :=
  s.data.all Char.isAlphanum && !s.data.isEmpty

/-- Embeds the detected-codec computation of clipper.py `extract_clips`
(lines 70-74): the decoded four-character tag when it has length 4 and is
alphanumeric, and the fallback `"mp4v"` otherwise. -/
def source_codec (codec_str : String) : String :=
  if codec_str.length = 4 ∧ str_isalnum codec_str then codec_str else "mp4v"

/-- Embeds `codecs_to_try = ['mp4v', 'XVID', 'H264', codec if len(codec) == 4
else None]` of clipper.py `_extract_clustered_clip` (line 279). -/
def codecs_to_try (codec : String) : List (Option String) :=
  [some "mp4v", some "XVID", some "H264",
   if codec.length = 4 then some codec else none]

/-- The attempt order of the codec loop of `_extract_clustered_clip`:
the non-`None` entries of `codecs_to_try`, in order (`if codec_name:`
skips the `None` entry). -/
def codec_attempts (codec : String) : List String :=
  (codecs_to_try codec).filterMap id

/-- Embeds the codec-selection loop of `_extract_clustered_clip`
(lines 278-290): the first attempt that `cv2.VideoWriter_fourcc` accepts
(the oracle `ok`), and the guaranteed final fallback `"mp4v"` when every
attempt raises. -/
def chosen_fourcc (ok : String → Bool) (codec : String) : String :=
  ((codec_attempts codec).find? ok).getD "mp4v"

/-- The aspect-ratio computation of detector.py `_filter_by_shape`
(line 196): `w / h if h > 0 else 0`. -/
def aspectOf (c : Contour) : ℚ :=
  if 0 < c.h then (c.w : ℚ) / (c.h : ℚ) else 0

/-- The linear area score of `_filter_by_shape` (line 203):
`min(1.0, (area - min_area) / (max_area - min_area))`. -/
def area_confidence (min_area max_area area : ℚ) : ℚ :=
  min 1 ((area - min_area) / (max_area - min_area))

/-- The clamped aspect score of `_filter_by_shape` (lines 204-205):
`max(0.0, min(1.0, 1.0 - abs(aspect - 1.5) / 1.5))`. -/
def aspect_confidence (aspect : ℚ) : ℚ :=
  max 0 (min 1 (1 - |aspect - 3 / 2| / (3 / 2)))

/-- Embeds the per-contour body of `_filter_by_shape`: `none` when the
area or the aspect ratio falls outside the accepted range, otherwise the
bounding box with confidence the average of the two scores. -/
def shape_check (min_area max_area aspect_min aspect_max : ℚ) (c : Contour) : Option Box :=
  if c.area < min_area ∨ max_area < c.area then none
  else if aspectOf c < aspect_min ∨ aspect_max < aspectOf c then none
  else
    some
      { x := c.x
        y := c.y
        w := c.w
        h := c.h
        confidence :=
          (area_confidence min_area max_area c.area + aspect_confidence (aspectOf c)) / 2 }

/-- Embeds detector.py `_filter_by_shape`: the surviving boxes of the
contour list, in order. -/
def filter_by_shape (min_area max_area aspect_min aspect_max : ℚ)
    (contours : List Contour) : List Box :=
  contours.filterMap (shape_check min_area max_area aspect_min aspect_max)

/-- The key order of `sorted(boxes, key=lambda b: b[0], reverse=True)` in
detector.py `_assign_stack_slot`: descending x-coordinate (a stable
descending sort by key `x` is a stable sort for this relation). -/
def boxGE (a b : Box) : Prop :=
  b.x ≤ a.x

instance : DecidableRel boxGE :=
  fun a b => inferInstanceAs (Decidable (b.x ≤ a.x))

instance : IsTotal Box boxGE :=
  ⟨fun a b => le_total b.x a.x⟩

instance : IsTrans Box boxGE :=
  ⟨fun _ _ _ h h2 => le_trans h2 h⟩

/-- Embeds detector.py `_assign_stack_slot`: sort the surviving boxes by
descending x-coordinate and emit one `Detection` per box, with
`stack_slot` its rank in that order (`enumerate`). -/
def assign_stack_slot (frame_num : Nat) (time_sec : ℚ) (boxes : List Box) : List Detection :=
  match boxes with
  | [] => []
  | _ :: _ =>
    (boxes.insertionSort boxGE).enum.map
      (fun p =>
        { frame := frame_num
          time_sec := time_sec
          x := p.2.x
          y := p.2.y
          width := p.2.w
          height := p.2.h
          stack_slot := p.1
          confidence := p.2.confidence })

/-- The clipping options of clipper.py read from the `clipping` section of
the configuration, with their defaults. -/
structure ClipConfig where
  min_confidence : ℚ
  min_box_count : Nat
  allowed_tags : List String
  max_clips : Option Nat
  pre_padding : ℚ
  post_padding : ℚ
  cluster_threshold : ℚ
deriving DecidableEq

/-- The key order of `filtered.sort(key=lambda e: (e.confidence,
e.box_count), reverse=True)` in clipper.py `_filter_events`: descending
lexicographic order on the pair. -/
def confBoxGE (a b : Event) : Prop :=
  b.confidence < a.confidence ∨ (b.confidence = a.confidence ∧ b.box_count ≤ a.box_count)

instance : DecidableRel confBoxGE :=
  fun a b =>
    inferInstanceAs
      (Decidable (b.confidence < a.confidence ∨
        (b.confidence = a.confidence ∧ b.box_count ≤ a.box_count)))

/-- Embeds clipper.py `_filter_events`: keep the events meeting the
confidence, box-count and tag criteria, sort them best-first, and
truncate to `max_clips` when that option is set and positive. -/
def filter_events (cfg : ClipConfig) (events : List Event) : List Event :=
  let filtered :=
    events.filter
      (fun e =>
        decide (cfg.min_confidence ≤ e.confidence) &&
        decide (cfg.min_box_count ≤ e.box_count) &&
        (cfg.allowed_tags.isEmpty || cfg.allowed_tags.contains e.tag_guess))
  let sorted := filtered.insertionSort confBoxGE
  match cfg.max_clips with
  | some m => if 0 < m then sorted.take m else sorted
  | none => sorted

/-- The key order `lambda e: e.start_time` used by clipper.py
`_cluster_events` when it sorts the filtered events. -/
def eventLE (a b : Event) : Prop :=
  a.start_time ≤ b.start_time

instance : DecidableRel eventLE :=
  fun a b => inferInstanceAs (Decidable (a.start_time ≤ b.start_time))

instance : IsTotal Event eventLE :=
  ⟨fun a b => le_total a.start_time b.start_time⟩

instance : IsTrans Event eventLE :=
  ⟨fun _ _ _ h h2 => le_trans h h2⟩

/-- The accumulation test of clipper.py `_cluster_events`:
`time_gap = event.start_time - last_event.end_time <= cluster_threshold`,
where `last_event` is the last event already in the current cluster. -/
def clusterGapOK (threshold : ℚ) (last cur : Event) : Bool :=
  decide (cur.start_time - last.end_time ≤ threshold)

/-- Embeds clipper.py `_cluster_events`: empty input gives no clusters;
otherwise the events are sorted by start time and chain-grouped, the
current cluster starting as `[sorted_events[0]]` and the loop running
over `sorted_events[1:]`. -/
def cluster_events (threshold : ℚ) (events : List Event) : List (List Event) :=
  match events with
  | [] => []
  | _ :: _ =>
    match events.insertionSort eventLE with
    | [] => []
    | e :: rest => closeGroups (rest.foldl (chainStep (clusterGapOK threshold)) ([], [e]))

/-- The frame range of one planned clip, as computed by clipper.py
`_extract_clustered_clip` (lines 236-246). -/
structure ClipPlan where
  start_frame : ℤ
  end_frame : ℤ
deriving DecidableEq

/-- Embeds the span computation of `_extract_clustered_clip`: `none` on an
empty cluster; otherwise pad `[min start_time, max end_time]` by the two
paddings, floor the start at `0`, and convert both bounds to frame indices
with Python `int(t * fps)`. -/
def clip_plan (pre_padding post_padding fps : ℚ) (cluster : List Event) : Option ClipPlan :=
  match cluster with
  | [] => none
  | e :: es =>
    let earliest_start := (es.map Event.start_time).foldl min e.start_time
    let latest_end := (es.map Event.end_time).foldl max e.end_time
    let start_time := max 0 (earliest_start - pre_padding)
    let end_time := latest_end + post_padding
    some { start_frame := ratTrunc (start_time * fps), end_frame := ratTrunc (end_time * fps) }

/-- Embeds the event-driven skeleton of clipper.py `extract_clips`: empty
input returns no clips at once; otherwise the events are filtered (empty
result: warning, no clips), clustered, and one clip is planned per
cluster; a plan appears in the output exactly when writing it succeeds
(the oracle `writeOk` embeds the file-existence check, a failed cluster
being skipped). -/
def extract_clips (cfg : ClipConfig) (fps : ℚ) (writeOk : ClipPlan → Bool)
    (events : List Event) : List ClipPlan :=
  match events with
  | [] => []
  | _ :: _ =>
    match filter_events cfg events with
    | [] => []
    | f :: fs =>
      (cluster_events cfg.cluster_threshold (f :: fs)).filterMap
        (fun c =>
          match clip_plan cfg.pre_padding cfg.post_padding fps c with
          | none => none
          | some p => if writeOk p then some p else none)

/-! ### Infrastructure: invariants of the chain-grouping loop -/

/-- The detections already committed to closed groups, followed by the
current group: the loop state read back as a flat list. -/
def stJoin (st : List (List α) × List α) : List α :=
  st.1.flatten ++ st.2

/-- Both chain-grouping loops maintain: every closed group is nonempty,
and the current group is empty only while no group has been closed. -/
def goodState (st : List (List α) × List α) : Prop :=
  (∀ G ∈ st.1, G ≠ []) ∧ (st.2 = [] → st.1 = [])

/-- Two adjacent groups were split by a failed gap test: the gap test is
false from the last element of the earlier group to the head of the
later one. -/
def boundaryFail (gapOK : α → α → Bool) (G G2 : List α) : Prop :=
  ∀ a ∈ G.getLast?, ∀ b ∈ G2.head?, gapOK a b = false

/-- The grouping invariant: inside every group (the open one included)
consecutive elements pass the gap test, and adjacent groups are separated
by a failed gap test. -/
def chainedState (gapOK : α → α → Bool) (st : List (List α) × List α) : Prop :=
  (∀ G ∈ closeGroups st, List.Chain' (fun a b => gapOK a b = true) G) ∧
  List.Chain' (boundaryFail gapOK) (closeGroups st)

theorem stJoin_chainStep (gapOK : α → α → Bool) (st : List (List α) × List α) (d : α) :
    stJoin (chainStep gapOK st d) = stJoin st ++ [d] := by
  obtain ⟨evs, cur⟩ := st
  cases cur with
  | nil => simp [chainStep, stJoin]
  | cons g gs =>
    by_cases h : gapOK ((g :: gs).getLast (List.cons_ne_nil g gs)) d = true
    · simp [chainStep, h, stJoin]
    · simp [chainStep, h, stJoin]

theorem stJoin_foldl (gapOK : α → α → Bool) (l : List α) :
    ∀ st : List (List α) × List α,
      stJoin (l.foldl (chainStep gapOK) st) = stJoin st ++ l := by
  induction l with
  | nil => intro st; simp
  | cons d ds ih =>
    intro st
    simp only [List.foldl_cons]
    rw [ih, stJoin_chainStep]
    simp

theorem closeGroups_flatten (st : List (List α) × List α) :
    (closeGroups st).flatten = stJoin st := by
  obtain ⟨evs, cur⟩ := st
  cases cur <;> simp [closeGroups, stJoin]

theorem closeGroups_ne_nil (st : List (List α) × List α) (h : goodState st) :
    ∀ G ∈ closeGroups st, G ≠ [] := by
  obtain ⟨evs, cur⟩ := st
  cases cur with
  | nil => exact fun G hG => h.1 G hG
  | cons c cs =>
    intro G hG
    rcases List.mem_append.1 hG with hG | hG
    · exact h.1 G hG
    · rcases List.mem_singleton.1 hG with rfl
      exact List.cons_ne_nil c cs

theorem goodState_chainStep (gapOK : α → α → Bool) (st : List (List α) × List α) (d : α)
    (h : goodState st) : goodState (chainStep gapOK st d) := by
  obtain ⟨evs, cur⟩ := st
  cases cur with
  | nil =>
    refine ⟨fun G hG => ?_, fun hc => ?_⟩
    · exact h.1 G hG
    · exact h.2 rfl
  | cons g gs =>
    by_cases hgap : gapOK ((g :: gs).getLast (List.cons_ne_nil g gs)) d = true
    · simp only [chainStep, hgap, if_true]
      exact ⟨h.1, fun hc => nomatch hc⟩
    · simp only [chainStep, hgap, if_false]
      refine ⟨fun G hG => ?_, fun hc => nomatch hc⟩
      rcases List.mem_append.1 hG with hG | hG
      · exact h.1 G hG
      · rcases List.mem_singleton.1 hG with rfl
        exact List.cons_ne_nil g gs

theorem chainedState_chainStep (gapOK : α → α → Bool) (st : List (List α) × List α) (d : α)
    (hg : goodState st) (h : chainedState gapOK st) : chainedState gapOK (chainStep gapOK st d) := by
  obtain ⟨evs, cur⟩ := st
  cases cur with
  | nil =>
    have hevs : evs = [] := hg.2 rfl
    subst hevs
    have hred : closeGroups (chainStep gapOK (([] : List (List α)), ([] : List α)) d)
        = [[d]] := rfl
    constructor
    · intro G hG
      rw [hred] at hG
      rcases List.mem_singleton.1 hG with rfl
      exact List.chain'_singleton d
    · rw [hred]
      exact List.chain'_singleton _
  | cons g gs =>
    have hclose : closeGroups (evs, g :: gs) = evs ++ [g :: gs] := rfl
    by_cases hgap : gapOK ((g :: gs).getLast (List.cons_ne_nil g gs)) d = true
    · have hstep : chainStep gapOK (evs, g :: gs) d = (evs, g :: (gs ++ [d])) := by
        simp only [chainStep]
        rw [if_pos hgap]
      rw [hstep]
      have hnew : closeGroups (evs, g :: (gs ++ [d])) = evs ++ [g :: (gs ++ [d])] := rfl
      have hx : g :: (gs ++ [d]) = (g :: gs) ++ [d] := rfl
      constructor
      · intro G hG
        rw [hnew] at hG
        rcases List.mem_append.1 hG with hG | hG
        · exact h.1 G (by rw [hclose]; exact List.mem_append_left _ hG)
        · rcases List.mem_singleton.1 hG with rfl
          rw [hx]
          refine List.chain'_append.2 ⟨?_, List.chain'_singleton d, ?_⟩
          · exact h.1 (g :: gs) (by rw [hclose]; exact List.mem_append_right _ (by simp))
          · intro a ha b hb
            rw [List.getLast?_eq_getLast _ (List.cons_ne_nil g gs)] at ha
            rcases Option.mem_some_iff.1 ha with rfl
            rcases Option.mem_some_iff.1 hb with rfl
            exact hgap
      · have hold := h.2
        rw [hclose] at hold
        rw [hnew]
        rcases List.chain'_append.1 hold with ⟨h1, _, h3⟩
        refine List.chain'_append.2 ⟨h1, List.chain'_singleton _, ?_⟩
        intro x hxl y hy
        rcases Option.mem_some_iff.1 hy with rfl
        intro a ha b hb
        rw [List.head?_cons] at hb
        rcases Option.mem_some_iff.1 hb with rfl
        exact h3 x hxl (g :: gs) (by simp) a ha g (by simp)
    · have hstep : chainStep gapOK (evs, g :: gs) d = (evs ++ [g :: gs], [d]) := by
        simp only [chainStep]
        rw [if_neg hgap]
      rw [hstep]
      have hnew : closeGroups (evs ++ [g :: gs], [d]) = (evs ++ [g :: gs]) ++ [[d]] := rfl
      constructor
      · intro G hG
        rw [hnew] at hG
        rcases List.mem_append.1 hG with hG | hG
        · exact h.1 G (by rw [hclose]; exact hG)
        · rcases List.mem_singleton.1 hG with rfl
          exact List.chain'_singleton d
      · rw [hnew]
        have hold := h.2
        rw [hclose] at hold
        refine List.chain'_append.2 ⟨hold, List.chain'_singleton _, ?_⟩
        intro x hxl y hy
        rcases Option.mem_some_iff.1 hy with rfl
        rw [List.getLast?_concat] at hxl
        rcases Option.mem_some_iff.1 hxl with rfl
        intro a ha b hb
        rw [List.getLast?_eq_getLast _ (List.cons_ne_nil g gs)] at ha
        rcases Option.mem_some_iff.1 ha with rfl
        rcases Option.mem_some_iff.1 hb with rfl
        exact eq_false_of_ne_true hgap

theorem foldl_chainStep_inv (gapOK : α → α → Bool) (l : List α) :
    ∀ st : List (List α) × List α, goodState st → chainedState gapOK st →
      goodState (l.foldl (chainStep gapOK) st) ∧
      chainedState gapOK (l.foldl (chainStep gapOK) st) := by
  induction l with
  | nil => exact fun st hg hc => ⟨hg, hc⟩
  | cons d ds ih =>
    intro st hg hc
    simp only [List.foldl_cons]
    exact ih _ (goodState_chainStep gapOK st d hg) (chainedState_chainStep gapOK st d hg hc)

theorem chainGroups_props (gapOK : α → α → Bool) (l : List α) :
    (chainGroups gapOK l).flatten = l ∧
    (∀ G ∈ chainGroups gapOK l, G ≠ []) ∧
    (∀ G ∈ chainGroups gapOK l, List.Chain' (fun a b => gapOK a b = true) G) ∧
    List.Chain' (boundaryFail gapOK) (chainGroups gapOK l) := by
  have hred : closeGroups (([] : List (List α)), ([] : List α)) = [] := rfl
  have hg0 : goodState (([] : List (List α)), ([] : List α)) :=
    ⟨fun G hG => absurd hG (List.not_mem_nil G), fun _ => rfl⟩
  have hc0 : chainedState gapOK (([] : List (List α)), ([] : List α)) := by
    constructor
    · intro G hG
      rw [hred] at hG
      exact absurd hG (List.not_mem_nil G)
    · rw [hred]
      exact List.chain'_nil
  obtain ⟨hgood, hchain⟩ := foldl_chainStep_inv gapOK l _ hg0 hc0
  refine ⟨?_, closeGroups_ne_nil _ hgood, hchain.1, hchain.2⟩
  show (closeGroups (l.foldl (chainStep gapOK) ([], []))).flatten = l
  rw [closeGroups_flatten, stJoin_foldl]
  rfl

/-- The chain-grouping run of clipper.py `_cluster_events`, which starts
with the first sorted event already in the current cluster, enjoys the
same invariants. -/
theorem chainRun_props (gapOK : α → α → Bool) (e : α) (rest : List α) :
    (closeGroups (rest.foldl (chainStep gapOK) ([], [e]))).flatten = e :: rest ∧
    (∀ G ∈ closeGroups (rest.foldl (chainStep gapOK) ([], [e])), G ≠ []) ∧
    (∀ G ∈ closeGroups (rest.foldl (chainStep gapOK) ([], [e])),
      List.Chain' (fun a b => gapOK a b = true) G) ∧
    List.Chain' (boundaryFail gapOK) (closeGroups (rest.foldl (chainStep gapOK) ([], [e]))) := by
  have hred : closeGroups (([] : List (List α)), [e]) = [[e]] := rfl
  have hg0 : goodState (([] : List (List α)), [e]) :=
    ⟨fun G hG => absurd hG (List.not_mem_nil G), fun hc => nomatch hc⟩
  have hc0 : chainedState gapOK (([] : List (List α)), [e]) := by
    constructor
    · intro G hG
      rw [hred] at hG
      rcases List.mem_singleton.1 hG with rfl
      exact List.chain'_singleton e
    · rw [hred]
      exact List.chain'_singleton _
  obtain ⟨hgood, hchain⟩ := foldl_chainStep_inv gapOK rest _ hg0 hc0
  refine ⟨?_, closeGroups_ne_nil _ hgood, hchain.1, hchain.2⟩
  rw [closeGroups_flatten, stJoin_foldl]
  rfl

/-! ### Infrastructure: `create_event` and `group_detections` -/

theorem create_event_eq (m : Nat) (vid : String) (G : List Detection) (ev : Event)
    (h : create_event m vid G = some ev) :
    ev.detections = G ∧ ev.box_count = G.length ∧ ev.tag_guess = classify_event m G := by
  match G with
  | [] => exact absurd h (by simp [create_event])
  | d :: ds =>
    simp only [create_event, Option.some.injEq] at h
    rw [← h]
    exact ⟨rfl, rfl, rfl⟩

theorem create_event_of_ne_nil (m : Nat) (vid : String) (G : List Detection) (hg : G ≠ []) :
    ∃ ev, create_event m vid G = some ev ∧ ev.detections = G := by
  match G, hg with
  | d :: ds, _ => exact ⟨_, rfl, rfl⟩

theorem filterMap_create_event_detections (m : Nat) (vid : String)
    (gs : List (List Detection)) (h : ∀ G ∈ gs, G ≠ []) :
    (gs.filterMap (create_event m vid)).map Event.detections = gs := by
  induction gs with
  | nil => rfl
  | cons g rest ih =>
    obtain ⟨ev, hev, hdet⟩ := create_event_of_ne_nil m vid g (h g (by simp))
    simp only [List.filterMap_cons, hev, List.map_cons, hdet]
    rw [ih (fun G hG => h G (by simp [hG]))]

theorem group_detections_cons (delta : ℚ) (m : Nat) (vid : String) (d : Detection)
    (ds : List Detection) :
    group_detections delta m vid (d :: ds) =
      (chainGroups (detGapOK delta) ((d :: ds).insertionSort detLE)).filterMap
        (create_event m vid) := rfl

theorem mem_group_detections {delta : ℚ} {m : Nat} {vid : String} {dets : List Detection}
    {ev : Event} (h : ev ∈ group_detections delta m vid dets) :
    ∃ G, G ∈ chainGroups (detGapOK delta) (dets.insertionSort detLE) ∧
      create_event m vid G = some ev := by
  cases dets with
  | nil => exact absurd h (List.not_mem_nil ev)
  | cons d ds =>
    rw [group_detections_cons] at h
    exact List.mem_filterMap.1 h

theorem group_detections_flatten (delta : ℚ) (m : Nat) (vid : String)
    (dets : List Detection) :
    flatten_events (group_detections delta m vid dets) = dets.insertionSort detLE := by
  cases dets with
  | nil => rfl
  | cons d ds =>
    show ((group_detections delta m vid (d :: ds)).map Event.detections).flatten = _
    rw [group_detections_cons,
      filterMap_create_event_detections _ _ _ (chainGroups_props _ _).2.1]
    exact (chainGroups_props _ _).1

theorem group_detections_sorted_input (delta : ℚ) (m : Nat) (vid : String)
    (l : List Detection) (hl : l ≠ []) (hs : List.Sorted detLE l) :
    group_detections delta m vid l =
      (chainGroups (detGapOK delta) l).filterMap (create_event m vid) := by
  match l, hl with
  | d :: ds, _ =>
    rw [group_detections_cons, hs.insertionSort_eq]

/-! ### Concrete data for the scenario conjuncts and witnesses -/

/-- The four detections of the spec's grouping scenario, at
t = 0.1, 0.5, 0.9, 3.0 seconds. -/
def scenario_dets : List Detection :=
  [{ frame := 3, time_sec := 1 / 10, x := 0, y := 0, width := 40, height := 20,
     stack_slot := 0, confidence := 1 },
   { frame := 15, time_sec := 1 / 2, x := 0, y := 0, width := 40, height := 20,
     stack_slot := 0, confidence := 1 },
   { frame := 27, time_sec := 9 / 10, x := 0, y := 0, width := 40, height := 20,
     stack_slot := 0, confidence := 1 },
   { frame := 90, time_sec := 3, x := 0, y := 0, width := 40, height := 20,
     stack_slot := 0, confidence := 1 }]

/-- Two detections half a second apart: they group into one two-box event
(the documented "UNKNOWN" edge case under the default threshold 3). -/
def pair_dets : List Detection :=
  [{ frame := 0, time_sec := 0, x := 0, y := 0, width := 40, height := 20,
     stack_slot := 0, confidence := 1 },
   { frame := 15, time_sec := 1 / 2, x := 0, y := 0, width := 40, height := 20,
     stack_slot := 0, confidence := 1 }]

/-- The single event `group_detections` produces from `pair_dets` with
delta 0.8 and multikill threshold 3. -/
def pair_event : Event :=
  { video_id := "v", start_frame := 0, end_frame := 15, start_time := 0, end_time := 1 / 2,
    box_count := 2, stack_slot_min := 0, stack_slot_max := 0, tag_guess := "UNKNOWN",
    confidence := 1, detections := pair_dets }

/-! ### Claim theorems -/

/-- C1: `group_detections` sorts the detections by timestamp and chains
them into events: the events' member lists concatenate to the
timestamp-sorted input, inside an event every consecutive pair of
detections has gap ≤ delta, and across an event boundary the gap from the
last detection of one event to the first of the next exceeds delta
(together: consecutive detections in sorted order share an event exactly
when the gap from the last accumulated detection is ≤ delta).  For the
spec's scenario t = [0.1, 0.5, 0.9, 3.0] with delta 0.8 the result is
exactly two events, {0.1, 0.5, 0.9} and {3.0}. -/
theorem group_detections_chain_correct (delta : ℚ) (m : Nat) (vid : String)
    (dets : List Detection) :
    List.Sorted detLE (flatten_events (group_detections delta m vid dets)) ∧
    flatten_events (group_detections delta m vid dets) = dets.insertionSort detLE ∧
    (∀ ev ∈ group_detections delta m vid dets,
      List.Chain' (fun a b => b.time_sec - a.time_sec ≤ delta) ev.detections) ∧
    List.Chain' (fun e e2 => ∀ a ∈ e.detections.getLast?, ∀ b ∈ e2.detections.head?,
      delta < b.time_sec - a.time_sec) (group_detections delta m vid dets) ∧
    (group_detections (8 / 10) 3 "video" scenario_dets).map
        (fun e => e.detections.map Detection.time_sec) = [[1 / 10, 1 / 2, 9 / 10], [3]] := by
  refine ⟨?_, group_detections_flatten delta m vid dets, ?_, ?_, by decide!⟩
  · rw [group_detections_flatten]
    exact List.sorted_insertionSort detLE dets
  · intro ev hev
    obtain ⟨G, hG, hce⟩ := mem_group_detections hev
    obtain ⟨hdet, -, -⟩ := create_event_eq _ _ _ _ hce
    rw [hdet]
    exact ((chainGroups_props (detGapOK delta) _).2.2.1 G hG).imp
      (fun a b hab => of_decide_eq_true hab)
  · cases dets with
    | nil => exact List.chain'_nil
    | cons d ds =>
      have hprops := chainGroups_props (detGapOK delta) ((d :: ds).insertionSort detLE)
      have hmap := filterMap_create_event_detections m vid _ hprops.2.1
      have hbound := hprops.2.2.2
      rw [← hmap] at hbound
      rw [group_detections_cons]
      refine (List.chain'_map Event.detections).1 hbound |>.imp ?_
      intro e e2 hb a ha b hbmem
      have hfalse := hb a ha b hbmem
      exact lt_of_not_le (of_decide_eq_false hfalse)

/-- C1 witness: the theorem applied to the concrete two-detection input,
with the membership hypothesis discharged by evaluation. -/
theorem group_detections_chain_correct_witness :
    List.Chain' (fun a b => b.time_sec - a.time_sec ≤ (8 / 10 : ℚ)) pair_event.detections :=
  (group_detections_chain_correct (8 / 10) 3 "v" pair_dets).2.2.1 pair_event (by decide!)

/-- C4: every event produced by grouping is tagged by the threshold
classifier: box_count ≥ threshold gives "MULTI_KILL", box_count = 1
(below the threshold) gives "KILL", and any other count below the
threshold gives "UNKNOWN" — in particular a two-detection event under
threshold 3 is tagged "UNKNOWN", not "KILL". -/
theorem classify_threshold_correct (delta : ℚ) (m : Nat) (vid : String)
    (dets : List Detection) (ev : Event) (hev : ev ∈ group_detections delta m vid dets) :
    (m ≤ ev.box_count → ev.tag_guess = "MULTI_KILL") ∧
    (ev.box_count < m → ev.box_count = 1 → ev.tag_guess = "KILL") ∧
    (ev.box_count < m → ev.box_count ≠ 1 → ev.tag_guess = "UNKNOWN") ∧
    (m = 3 → ev.box_count = 2 → ev.tag_guess = "UNKNOWN") := by
  obtain ⟨G, hG, hce⟩ := mem_group_detections hev
  obtain ⟨-, hbc, htag⟩ := create_event_eq _ _ _ _ hce
  rw [htag, classify_event, ← hbc]
  refine ⟨fun h => ?_, fun hlt h1 => ?_, fun hlt h1 => ?_, fun hm h2 => ?_⟩
  · rw [if_pos h]
  · rw [if_neg (not_le.2 hlt), if_pos h1]
  · rw [if_neg (not_le.2 hlt), if_neg h1]
  · subst hm
    rw [h2]
    rfl

/-- C4 witness: the two-detection event under threshold 3 is "UNKNOWN". -/
theorem classify_threshold_correct_witness : pair_event.tag_guess = "UNKNOWN" :=
  (classify_threshold_correct (8 / 10) 3 "v" pair_dets pair_event (by decide!)).2.2.2 rfl rfl

/-- C7: grouping is idempotent over flattening: re-grouping the
concatenated member detections of the events (in event order) with the
same threshold returns the very same event list, hence identical
boundaries, member sets, start/end times and frames. -/
theorem group_detections_idempotent (delta : ℚ) (m : Nat) (vid : String)
    (dets : List Detection) :
    group_detections delta m vid (flatten_events (group_detections delta m vid dets)) =
      group_detections delta m vid dets := by
  cases dets with
  | nil => rfl
  | cons d ds =>
    rw [group_detections_flatten]
    have hs : List.Sorted detLE ((d :: ds).insertionSort detLE) :=
      List.sorted_insertionSort detLE (d :: ds)
    have hne : (d :: ds).insertionSort detLE ≠ [] := by
      intro h0
      have hlen := List.length_insertionSort detLE (d :: ds)
      rw [h0] at hlen
      simp at hlen
    rw [group_detections_sorted_input delta m vid _ hne hs, group_detections_cons]

/-- C9: empty input is neutral, never an error: the grouper returns an
empty event list, both exporters write no file, and the clip extractor
returns no clips. -/
theorem empty_input_neutral (delta : ℚ) (m : Nat) (vid : String) (cfg : ClipConfig)
    (fps : ℚ) (writeOk : ClipPlan → Bool) :
    group_detections delta m vid [] = [] ∧
    export_to_csv [] = none ∧
    export_to_json [] = none ∧
    extract_clips cfg fps writeOk [] = [] :=
  ⟨rfl, rfl, rfl, rfl⟩

/-- C10: grouping partitions its input: the events' member lists
concatenate (in event order) to the input sorted by timestamp, that
concatenation is a permutation of the input (nothing dropped or
duplicated), and the events' box_count fields sum to the input length. -/
theorem group_detections_partitions (delta : ℚ) (m : Nat) (vid : String)
    (dets : List Detection) :
    flatten_events (group_detections delta m vid dets) = dets.insertionSort detLE ∧
    List.Perm (flatten_events (group_detections delta m vid dets)) dets ∧
    ((group_detections delta m vid dets).map Event.box_count).sum = dets.length := by
  refine ⟨group_detections_flatten delta m vid dets, ?_, ?_⟩
  · rw [group_detections_flatten]
    exact List.perm_insertionSort detLE dets
  · have hbc : ∀ ev ∈ group_detections delta m vid dets,
        Event.box_count ev = (Event.detections ev).length := by
      intro ev hev
      obtain ⟨G, hG, hce⟩ := mem_group_detections hev
      obtain ⟨hdet, hbcG, -⟩ := create_event_eq _ _ _ _ hce
      rw [hbcG, hdet]
    rw [List.map_congr_left hbc]
    have hlen : ((group_detections delta m vid dets).map
        (fun ev => (Event.detections ev).length)).sum =
        (flatten_events (group_detections delta m vid dets)).length := by
      rw [flatten_events, List.length_flatten, List.map_map]
      rfl
    rw [hlen, group_detections_flatten, List.length_insertionSort]

/-- Python `int()` truncation agrees with the floor on nonnegative
rationals (the case of a positive fps over a positive sample rate). -/
theorem ratTrunc_eq_floor (q : ℚ) (hq : 0 ≤ q) : ratTrunc q = ⌊q⌋ := by
  rw [ratTrunc, Int.tdiv_eq_ediv (Rat.num_nonneg.mpr hq) (Int.natCast_nonneg q.den),
    Rat.floor_def]

/-- C2 counterexample: at fps = 5 and sample_fps = 3 the code's stride is
`max(1, int(5/3)) = 1` while the spec's claimed stride
`max(1, round(5/3)) = 2`; `int()` truncates where the spec says round. -/
theorem frame_skip_ne_claimedStride : frame_skip 5 3 ≠ claimedStride 5 3 := by decide!

/-- C2 amended: for fps > 0 and sample_fps > 0 the stride is
`max(1, ⌊fps / sample_fps⌋)` — Python `int()` truncation of the rate
quotient, not rounding — and the sampled frame indices are exactly the
multiples of the stride within `[0, frame_count)`, each yielded with
timestamp `index / fps`. -/
theorem sample_frames_correct (fps sample_fps : ℚ) (frame_count : Nat)
    (hfps : 0 < fps) (hsf : 0 < sample_fps) :
    frame_skip fps sample_fps = max 1 (Int.toNat ⌊fps / sample_fps⌋) ∧
    ∀ n t, (n, t) ∈ sample_frames fps (frame_skip fps sample_fps) frame_count ↔
      n < frame_count ∧ (∃ k, n = frame_skip fps sample_fps * k) ∧ t = (n : ℚ) / fps := by
  constructor
  · rw [frame_skip, ratTrunc_eq_floor _ (le_of_lt (div_pos hfps hsf))]
  · intro n t
    rw [sample_frames, List.mem_filterMap]
    constructor
    · rintro ⟨a, ha, hfa⟩
      rw [List.mem_range] at ha
      by_cases hmod : a % frame_skip fps sample_fps = 0
      · rw [if_pos hmod, Option.some.injEq, Prod.mk.injEq] at hfa
        obtain ⟨rfl, rfl⟩ := hfa
        obtain ⟨k, hk⟩ := Nat.dvd_of_mod_eq_zero hmod
        exact ⟨ha, ⟨k, hk⟩, rfl⟩
      · rw [if_neg hmod] at hfa
        exact absurd hfa (Option.noConfusion)
    · rintro ⟨hn, ⟨k, rfl⟩, rfl⟩
      exact ⟨frame_skip fps sample_fps * k, List.mem_range.mpr hn,
        by rw [if_pos (Nat.mul_mod_right _ _)]⟩

/-- C2 witness: at fps = 30 and sample_fps = 3 the stride is 10 and the
frame of index 20 is sampled with timestamp 2/3 s. -/
theorem sample_frames_correct_witness :
    (20, (2 : ℚ) / 3) ∈ sample_frames 30 (frame_skip 30 3) 25 :=
  ((sample_frames_correct 30 3 25 (by norm_num) (by norm_num)).2 20 ((2 : ℚ) / 3)).mpr
    ⟨by norm_num, ⟨2, by decide!⟩, by decide!⟩

/-- C3 counterexample: for the detected source codec "avc1" — a valid
four-character alphanumeric tag — the first codec attempted by the
re-encoding loop is "mp4v", not the detected codec. -/
theorem codec_first_attempt_not_source :
    ¬(codec_attempts (source_codec "avc1")).head? = some (source_codec "avc1") := by decide!

/-- C3 amended: the attempt order is the fixed ordered list mp4v, XVID,
H264 *followed by* the detected source codec (always a four-character tag
after detection), so a valid detected codec is the last attempt, not the
first; the guaranteed default mp4v is both the first attempt and the
final fallback when every attempt fails. -/
theorem codec_attempt_order (codec_str : String) :
    (source_codec codec_str).length = 4 ∧
    codec_attempts (source_codec codec_str) =
      ["mp4v", "XVID", "H264", source_codec codec_str] ∧
    ∀ ok : String → Bool,
      (∀ c ∈ codec_attempts (source_codec codec_str), ok c = false) →
      chosen_fourcc ok (source_codec codec_str) = "mp4v" := by
  have hlen : (source_codec codec_str).length = 4 := by
    rw [source_codec]
    split_ifs with h
    · exact h.1
    · decide
  refine ⟨hlen, ?_, ?_⟩
  · rw [codec_attempts, codecs_to_try, if_pos hlen]
    rfl
  · intro ok hfail
    have hnone : (codec_attempts (source_codec codec_str)).find? ok = none :=
      List.find?_eq_none.mpr (fun x hx => by rw [hfail x hx]; exact Bool.false_ne_true)
    rw [chosen_fourcc, hnone]
    rfl

/-- C3 witness: with every attempt failing, the final fallback for the
detected codec "avc1" is "mp4v". -/
theorem codec_attempt_order_witness :
    chosen_fourcc (fun _ => false) (source_codec "avc1") = "mp4v" :=
  (codec_attempt_order "avc1").2.2 (fun _ => false) (fun _ _ => rfl)

/-- Two boxes in one frame, the second one further right: input order is
not x order, so the slot assignment must sort. -/
def demo_boxes : List Box :=
  [{ x := 5, y := 2, w := 30, h := 20, confidence := 1 / 2 },
   { x := 10, y := 2, w := 30, h := 20, confidence := 1 / 2 }]

theorem assign_stack_slot_length (frame_num : Nat) (time_sec : ℚ) (boxes : List Box) :
    (assign_stack_slot frame_num time_sec boxes).length = boxes.length := by
  cases boxes with
  | nil => rfl
  | cons b bs =>
    show ((((b :: bs).insertionSort boxGE).enum.map _).length = _)
    rw [List.length_map, List.enum_length, List.length_insertionSort]

/-- C5: the stack slots assigned within one frame are exactly
`0, 1, …, n-1` in output order (a permutation of `0..n-1`, no
duplicates), the emitted boxes are a permutation of the input boxes, a
box with strictly larger x-coordinate receives a strictly smaller slot,
and the box holding slot 0 is the rightmost (maximal x). -/
theorem assign_stack_slot_correct (frame_num : Nat) (time_sec : ℚ) (boxes : List Box) :
    ((assign_stack_slot frame_num time_sec boxes).map Detection.stack_slot =
      List.range boxes.length) ∧
    List.Perm ((assign_stack_slot frame_num time_sec boxes).map
      (fun d => Box.mk d.x d.y d.width d.height d.confidence)) boxes ∧
    (∀ i j : Nat, ∀ hi : i < (assign_stack_slot frame_num time_sec boxes).length,
      ∀ hj : j < (assign_stack_slot frame_num time_sec boxes).length,
      ((assign_stack_slot frame_num time_sec boxes).get ⟨j, hj⟩).x <
        ((assign_stack_slot frame_num time_sec boxes).get ⟨i, hi⟩).x →
      ((assign_stack_slot frame_num time_sec boxes).get ⟨i, hi⟩).stack_slot <
        ((assign_stack_slot frame_num time_sec boxes).get ⟨j, hj⟩).stack_slot) ∧
    (∀ d ∈ assign_stack_slot frame_num time_sec boxes, d.stack_slot = 0 →
      ∀ d2 ∈ assign_stack_slot frame_num time_sec boxes, d2.x ≤ d.x) := by
  cases boxes with
  | nil =>
    refine ⟨rfl, List.Perm.refl _, ?_, ?_⟩
    · intro i j hi hj
      exact absurd hi (by simp [assign_stack_slot])
    · intro d hd
      exact absurd hd (List.not_mem_nil d)
  | cons b bs =>
    have hsort : List.Sorted boxGE ((b :: bs).insertionSort boxGE) :=
      List.sorted_insertionSort boxGE (b :: bs)
    have hout : assign_stack_slot frame_num time_sec (b :: bs) =
        ((b :: bs).insertionSort boxGE).enum.map
          (fun p =>
            ({ frame := frame_num
               time_sec := time_sec
               x := p.2.x
               y := p.2.y
               width := p.2.w
               height := p.2.h
               stack_slot := p.1
               confidence := p.2.confidence } : Detection)) := rfl
    have hlen : (assign_stack_slot frame_num time_sec (b :: bs)).length =
        ((b :: bs).insertionSort boxGE).length := by
      rw [assign_stack_slot_length, List.length_insertionSort]
    refine ⟨?_, ?_, ?_, ?_⟩
    · rw [hout, List.map_map]
      have hcomp : (Detection.stack_slot ∘ fun p : Nat × Box =>
          ({ frame := frame_num
             time_sec := time_sec
             x := p.2.x
             y := p.2.y
             width := p.2.w
             height := p.2.h
             stack_slot := p.1
             confidence := p.2.confidence } : Detection)) = Prod.fst := rfl
      rw [hcomp, List.enum_map_fst, List.length_insertionSort]
    · rw [hout, List.map_map]
      have hcomp : ((fun d : Detection => Box.mk d.x d.y d.width d.height d.confidence) ∘
          fun p : Nat × Box =>
          ({ frame := frame_num
             time_sec := time_sec
             x := p.2.x
             y := p.2.y
             width := p.2.w
             height := p.2.h
             stack_slot := p.1
             confidence := p.2.confidence } : Detection)) = Prod.snd := rfl
      rw [hcomp, List.enum_map_snd]
      exact List.perm_insertionSort boxGE (b :: bs)
    · intro i j hi hj
      have hi2 : i < ((b :: bs).insertionSort boxGE).length := hlen ▸ hi
      have hj2 : j < ((b :: bs).insertionSort boxGE).length := hlen ▸ hj
      simp only [hout, List.get_eq_getElem, List.getElem_map, List.getElem_enum]
      intro hx
      by_contra hij
      push_neg at hij
      rcases Nat.eq_or_lt_of_le hij with heq | hlt
      · subst heq
        exact absurd hx (lt_irrefl _)
      · have hrel := hsort.rel_get_of_lt
          (show (⟨j, hj2⟩ : Fin ((b :: bs).insertionSort boxGE).length) < ⟨i, hi2⟩ from hlt)
        rw [List.get_eq_getElem, List.get_eq_getElem] at hrel
        exact absurd hx (not_lt.mpr hrel)
    · intro d hd h0 d2 hd2
      obtain ⟨⟨i, hi⟩, hgi⟩ := List.mem_iff_get.mp hd
      obtain ⟨⟨j, hj⟩, hgj⟩ := List.mem_iff_get.mp hd2
      have hi2 : i < ((b :: bs).insertionSort boxGE).length := hlen ▸ hi
      have hj2 : j < ((b :: bs).insertionSort boxGE).length := hlen ▸ hj
      have hslot : d.stack_slot = i := by
        rw [← hgi]
        simp only [hout, List.get_eq_getElem, List.getElem_map, List.getElem_enum]
      have hi0 : i = 0 := by rw [← hslot, h0]
      subst hi0
      have hdx : d.x = (((b :: bs).insertionSort boxGE).get ⟨0, hi2⟩).x := by
        rw [← hgi]
        simp only [hout, List.get_eq_getElem, List.getElem_map, List.getElem_enum]
      have hd2x : d2.x = (((b :: bs).insertionSort boxGE).get ⟨j, hj2⟩).x := by
        rw [← hgj]
        simp only [hout, List.get_eq_getElem, List.getElem_map, List.getElem_enum]
      rw [hdx, hd2x]
      rcases Nat.eq_zero_or_pos j with hj0 | hj0
      · subst hj0
        exact le_refl _
      · exact hsort.rel_get_of_lt
          (show (⟨0, hi2⟩ : Fin ((b :: bs).insertionSort boxGE).length) < ⟨j, hj2⟩ from hj0)

/-- C5 witness: for the two demo boxes (x = 5 then x = 10) the rightmost
box receives the strictly smaller slot. -/
theorem assign_stack_slot_correct_witness :
    ((assign_stack_slot 7 0 demo_boxes).get ⟨0, by decide!⟩).stack_slot <
      ((assign_stack_slot 7 0 demo_boxes).get ⟨1, by decide!⟩).stack_slot :=
  (assign_stack_slot_correct 7 0 demo_boxes).2.2.1 0 1 (by decide!) (by decide!) (by decide!)

/-- A contour at the minimal accepted area, with the ideal 1.5 aspect. -/
def demo_contour : Contour :=
  { area := 100, x := 0, y := 0, w := 30, h := 20 }

/-- The box `_filter_by_shape` produces from `demo_contour` under the
default thresholds: area score 0, aspect score 1, confidence 1/2. -/
def demo_box : Box :=
  { x := 0, y := 0, w := 30, h := 20, confidence := 1 / 2 }

/-- C6: every box surviving the shape filter (area within
[min_area, max_area], min_area < max_area, aspect within bounds) carries
confidence equal to the average of the linear area score and the clamped
aspect score, and that confidence lies in [0, 1]; at the boundaries, area
= min_area scores 0 and area = max_area scores 1. -/
theorem filter_by_shape_confidence (min_area max_area aspect_min aspect_max : ℚ)
    (hlt : min_area < max_area) (contours : List Contour) :
    (∀ b ∈ filter_by_shape min_area max_area aspect_min aspect_max contours,
      (0 ≤ b.confidence ∧ b.confidence ≤ 1) ∧
      ∃ c ∈ contours,
        min_area ≤ c.area ∧ c.area ≤ max_area ∧
        b.confidence =
          (area_confidence min_area max_area c.area + aspect_confidence (aspectOf c)) / 2) ∧
    area_confidence min_area max_area min_area = 0 ∧
    area_confidence min_area max_area max_area = 1 := by
  have hdpos : 0 < max_area - min_area := sub_pos.mpr hlt
  refine ⟨?_, ?_, ?_⟩
  · intro b hb
    obtain ⟨c, hc, hcheck⟩ := List.mem_filterMap.mp hb
    rw [shape_check] at hcheck
    split_ifs at hcheck with h1 h2
    rw [Option.some.injEq] at hcheck
    push_neg at h1
    have harea1 : min_area ≤ c.area := h1.1
    have harea2 : c.area ≤ max_area := h1.2
    have hconf : b.confidence =
        (area_confidence min_area max_area c.area + aspect_confidence (aspectOf c)) / 2 := by
      rw [← hcheck]
    have hac0 : 0 ≤ area_confidence min_area max_area c.area :=
      le_min zero_le_one (div_nonneg (sub_nonneg.mpr harea1) (le_of_lt hdpos))
    have hac1 : area_confidence min_area max_area c.area ≤ 1 := min_le_left _ _
    have hpc0 : 0 ≤ aspect_confidence (aspectOf c) := le_max_left _ _
    have hpc1 : aspect_confidence (aspectOf c) ≤ 1 :=
      max_le zero_le_one (min_le_left _ _)
    refine ⟨⟨?_, ?_⟩, c, hc, harea1, harea2, hconf⟩
    · rw [hconf]
      exact div_nonneg (add_nonneg hac0 hpc0) (by norm_num)
    · rw [hconf, div_le_one (by norm_num : (0:ℚ) < 2)]
      calc area_confidence min_area max_area c.area + aspect_confidence (aspectOf c)
          ≤ 1 + 1 := add_le_add hac1 hpc1
        _ = 2 := by norm_num
  · rw [area_confidence, sub_self, zero_div]
    exact min_eq_right zero_le_one
  · rw [area_confidence, div_self (ne_of_gt hdpos)]
    exact min_self 1

/-- C6 witness: the box produced from the demo contour (area exactly at
min_area, aspect exactly 1.5) has confidence within [0, 1]. -/
theorem filter_by_shape_confidence_witness :
    0 ≤ demo_box.confidence ∧ demo_box.confidence ≤ 1 :=
  ((filter_by_shape_confidence 100 5000 (3 / 10) 3 (by norm_num) [demo_contour]).1
    demo_box (by decide!)).1

/-- An event spanning seconds 10 to 20 (frames 300 to 600). -/
def evA : Event :=
  { video_id := "v", start_frame := 300, end_frame := 600, start_time := 10, end_time := 20,
    box_count := 1, stack_slot_min := 0, stack_slot_max := 0, tag_guess := "KILL",
    confidence := 1, detections := [] }

/-- An event starting 3 s after `evA` ends. -/
def evB3 : Event :=
  { video_id := "v", start_frame := 690, end_frame := 720, start_time := 23, end_time := 24,
    box_count := 1, stack_slot_min := 0, stack_slot_max := 0, tag_guess := "KILL",
    confidence := 1, detections := [] }

/-- An event starting 6 s after `evA` ends. -/
def evB6 : Event :=
  { video_id := "v", start_frame := 780, end_frame := 810, start_time := 26, end_time := 27,
    box_count := 1, stack_slot_min := 0, stack_slot_max := 0, tag_guess := "KILL",
    confidence := 1, detections := [] }

theorem cluster_events_eq_of_sorted_cons (threshold : ℚ) (events : List Event)
    (hne : events ≠ []) (f : Event) (fs : List Event)
    (h : events.insertionSort eventLE = f :: fs) :
    cluster_events threshold events =
      closeGroups (fs.foldl (chainStep (clusterGapOK threshold)) ([], [f])) := by
  match events, hne with
  | e :: es, _ =>
    rw [cluster_events, h]

/-- C8: clustering sorts the filtered events by start time and greedily
chains them: the clusters' members concatenate to the start-time-sorted
input, inside a cluster every consecutive pair of events satisfies
`next.start_time - previous.end_time ≤ threshold`, and across a cluster
boundary that gap exceeds the threshold.  Two events with a 3 s gap under
threshold 5 form one cluster; with a 6 s gap they form two clusters. -/
theorem cluster_events_correct (threshold : ℚ) (events : List Event) :
    (cluster_events threshold events).flatten = events.insertionSort eventLE ∧
    (∀ C ∈ cluster_events threshold events, C ≠ []) ∧
    (∀ C ∈ cluster_events threshold events,
      List.Chain' (fun e e2 => e2.start_time - e.end_time ≤ threshold) C) ∧
    List.Chain' (fun C C2 => ∀ e ∈ C.getLast?, ∀ e2 ∈ C2.head?,
      threshold < e2.start_time - e.end_time) (cluster_events threshold events) ∧
    cluster_events 5 [evA, evB3] = [[evA, evB3]] ∧
    cluster_events 5 [evA, evB6] = [[evA], [evB6]] := by
  have hscen1 : cluster_events 5 [evA, evB3] = [[evA, evB3]] := by decide!
  have hscen2 : cluster_events 5 [evA, evB6] = [[evA], [evB6]] := by decide!
  cases events with
  | nil => exact ⟨rfl, fun C hC => absurd hC (List.not_mem_nil C), fun C hC =>
      absurd hC (List.not_mem_nil C), List.chain'_nil, hscen1, hscen2⟩
  | cons e es =>
    obtain ⟨f, fs, hsort⟩ :=
      List.exists_cons_of_ne_nil (l := (e :: es).insertionSort eventLE)
        (by
          intro h0
          have hlen := List.length_insertionSort eventLE (e :: es)
          rw [h0] at hlen
          simp at hlen)
    have hceq := cluster_events_eq_of_sorted_cons threshold (e :: es)
      (List.cons_ne_nil e es) f fs hsort
    have hprops := chainRun_props (clusterGapOK threshold) f fs
    refine ⟨?_, ?_, ?_, ?_, hscen1, hscen2⟩
    · rw [hceq, hprops.1, ← hsort]
    · intro C hC
      rw [hceq] at hC
      exact hprops.2.1 C hC
    · intro C hC
      rw [hceq] at hC
      exact (hprops.2.2.1 C hC).imp (fun a b hab => of_decide_eq_true hab)
    · rw [hceq]
      exact hprops.2.2.2.imp (fun C C2 hb e1 he1 e2 he2 =>
        lt_of_not_le (of_decide_eq_false (hb e1 he1 e2 he2)))

/-- C8 witness: the one cluster formed from the 3 s gap scenario is
chained with gaps within the 5 s threshold. -/
theorem cluster_events_correct_witness :
    List.Chain' (fun e e2 => e2.start_time - e.end_time ≤ (5 : ℚ)) [evA, evB3] :=
  (cluster_events_correct 5 [evA, evB3]).2.2.1 [evA, evB3] (by decide!)

end BKF
